import Mathlib

/-!
Verification of the analytical core of the quantitative trading-recommendation
service: the technical-indicator library (`src/analysis/technical_indicators.py`)
and the signal / risk / entry-exit engine (`src/strategies/trading_strategy.py`).

Conventions of the embedding:
* Python floats are modelled as rationals (`ℚ`); Lean's total division by zero
  never fires on the code paths we verify because every division in the source
  is guarded.
* Python lists become `List ℚ`; negative-index access `xs[-1]` becomes
  `xs.getLast?`; slices become `drop`/`take`.
* Fallible Python operations (`float(x)` on a non-numeric value, calling
  `.upper()` on a non-string) return `Except`; a `try/except` block becomes a
  `match` on the `Except` value.
* External, non-reproducible collaborators (numpy's seeded Gaussian walk in
  `_generate_mock_historical_data`, `numpy.std`'s square root, the trained
  ml_predictor, `%`-string formatting, wall-clock time) are gathered into the
  `Externals` structure and every theorem quantifies over it.
-/

namespace TechnicalIndicators

/-- `TechnicalIndicators.sma` (technical_indicators.py lines 9-29): trailing
arithmetic mean; the loop index `i ∈ [period-1, len)` is re-indexed by
`k = i - (period - 1)`, so the window `prices[i-period+1 : i+1]` is
`(prices.drop k).take period`. -/
def sma (prices : List ℚ) (period : ℕ) : List ℚ :=
  if prices.length < period then []
  else (List.range (prices.length - period + 1)).map
    (fun k => ((prices.drop k).take period).sum / (period : ℚ))

/-- One exponential-moving-average step: `price*mult + prev*(1-mult)`
(technical_indicators.py line 55). -/
def emaStep (mult prev price : ℚ) : ℚ := price * mult + prev * (1 - mult)

/-- `TechnicalIndicators.ema` (lines 31-58): first value seeded from the simple
mean of the first `period` prices, then one `emaStep` per remaining price.
The Python loop appending to `ema_values` is a left scan. -/
def ema (prices : List ℚ) (period : ℕ) : List ℚ :=
  if prices.length < period then []
  else
    (prices.drop period).scanl
      (emaStep (2 / ((period : ℚ) + 1)))
      ((prices.take period).sum / (period : ℚ))

/-- Per-bar price changes `prices[i] - prices[i-1]` (lines 76-78). -/
def priceChanges (prices : List ℚ) : List ℚ :=
  List.zipWith (fun a b => a - b) (prices.drop 1) prices

/-- `gains = [max(change, 0) for change in price_changes]` (line 81). -/
def gainsOf (prices : List ℚ) : List ℚ :=
  (priceChanges prices).map (fun c => max c 0)

/-- `losses = [abs(min(change, 0)) for change in price_changes]` (line 82). -/
def lossesOf (prices : List ℚ) : List ℚ :=
  (priceChanges prices).map (fun c => |min c 0|)

/-- Wilder smoothing update `(prev*(period-1) + current)/period`
(lines 99-100). -/
def wilder (period : ℕ) (prev cur : ℚ) : ℚ :=
  (prev * ((period : ℚ) - 1) + cur) / (period : ℚ)

/-- The RSI value computed from a smoothed average gain and average loss:
`100` if the average loss is zero, else `100 - 100/(1+rs)` (lines 90-95,
102-107). -/
def rsiVal (g l : ℚ) : ℚ :=
  if l = 0 then 100 else 100 - 100 / (1 + g / l)

/-- The successive (average gain, average loss) pairs of the RSI computation:
seeded with the simple means of the first `period` gains/losses (lines 87-88)
and advanced by `wilder` for each later bar (lines 98-100).  The Python loop is
a left scan over the remaining (gain, loss) pairs. -/
def rsiAvgs (prices : List ℚ) (period : ℕ) : List (ℚ × ℚ) :=
  (((gainsOf prices).drop period).zip ((lossesOf prices).drop period)).scanl
    (fun a gl => (wilder period a.1 gl.1, wilder period a.2 gl.2))
    (((gainsOf prices).take period).sum / (period : ℚ),
     ((lossesOf prices).take period).sum / (period : ℚ))

/-- `TechnicalIndicators.rsi` (lines 60-109). -/
def rsi (prices : List ℚ) (period : ℕ) : List ℚ :=
  if prices.length < period + 1 then []
  else (rsiAvgs prices period).map (fun a => rsiVal a.1 a.2)

structure MacdResult where
  macd : List ℚ
  signal : List ℚ
  histogram : List ℚ
  deriving DecidableEq

/-- `TechnicalIndicators.macd` (lines 111-154): MACD line = front-aligned fast
EMA minus slow EMA; signal line = EMA of the MACD line; histogram pairs the
last `len(signal)` MACD values with the signal line. -/
def macd (prices : List ℚ) (fastPeriod slowPeriod signalPeriod : ℕ) : MacdResult :=
  if prices.length < slowPeriod then ⟨[], [], []⟩
  else
    let fastAligned := (ema prices fastPeriod).drop (slowPeriod - fastPeriod)
    let macdLine := List.zipWith (fun a b => a - b) fastAligned (ema prices slowPeriod)
    let signalLine := ema macdLine signalPeriod
    let histogram := (List.range signalLine.length).map
      (fun i => macdLine.getD (macdLine.length - signalLine.length + i) 0
                  - signalLine.getD i 0)
    ⟨macdLine, signalLine, histogram⟩

/-- Population variance of a list, as computed by lines 306-307 (and the value
whose square root `np.std` returns on line 179). -/
def popVariance (xs : List ℚ) : ℚ :=
  ((xs.map (fun x => (x - xs.sum / (xs.length : ℚ)) ^ 2)).sum) / (xs.length : ℚ)

structure BBResult where
  upper : List ℚ
  middle : List ℚ
  lower : List ℚ

/-- `TechnicalIndicators.bollinger_bands` (lines 156-189).  `np.std` is the
square root of the population variance; the square root itself is an external
floating-point routine, abstracted as the function `sq`. -/
def bollinger_bands (sq : ℚ → ℚ) (prices : List ℚ) (period : ℕ) (stdDev : ℚ) :
    BBResult :=
  if prices.length < period then ⟨[], [], []⟩
  else
    let middle := sma prices period
    let widths := (List.range (prices.length - period + 1)).map
      (fun k => sq (popVariance ((prices.drop k).take period)) * stdDev)
    ⟨List.zipWith (fun m w => m + w) middle widths,
     middle,
     List.zipWith (fun m w => m - w) middle widths⟩

structure VolumeResult where
  avgVolume : ℚ
  currentVolume : Option ℚ
  volumeRatio : ℚ
  isAbnormal : Bool
  deriving DecidableEq

/-- `TechnicalIndicators.volume_analysis` (lines 191-221).  The short-input
branch returns a dictionary without the `current_volume` key, modelled by
`Option.none`. -/
def volume_analysis (volumes : List ℚ) (period : ℕ) : VolumeResult :=
  if volumes.length < period then ⟨0, Option.none, 1, false⟩
  else
    let avg := (volumes.drop (volumes.length - period)).sum / (period : ℚ)
    let current := volumes.getLast?.getD 0
    let ratio := if avg > 0 then current / avg else 1
    ⟨avg, some current, ratio, decide (ratio > 3/2)⟩

structure SRResult where
  support : List ℚ
  resistance : List ℚ
  deriving DecidableEq

/-- `TechnicalIndicators.support_resistance_levels` (lines 223-275): a bar at
index `i ∈ [window, len - window)` is appended when no other bar in the
symmetric window has a strictly lower low (resp. strictly higher high); the
inner Python loop that breaks on the first violation is the `List.all`. -/
def support_resistance_levels (prices highs lows : List ℚ) (window : ℕ) :
    SRResult :=
  if prices.length < 2 * window + 1 then ⟨[], []⟩
  else
    ⟨((List.range' window (lows.length - 2 * window)).filter (fun i =>
        (List.range' (i - window) (2 * window + 1)).all (fun j =>
          decide (j = i ∨ ¬ lows.getD j 0 < lows.getD i 0)))).map
        (fun i => lows.getD i 0),
     ((List.range' window (highs.length - 2 * window)).filter (fun i =>
        (List.range' (i - window) (2 * window + 1)).all (fun j =>
          decide (j = i ∨ ¬ highs.getD i 0 < highs.getD j 0)))).map
        (fun i => highs.getD i 0)⟩

/-- `TechnicalIndicators.calculate_volatility` (lines 277-309): population
standard deviation of the trailing `period` simple returns (returns are only
taken where the previous price is nonzero); the square root is the abstracted
external routine `sq`. -/
def calculate_volatility (sq : ℚ → ℚ) (prices : List ℚ) (period : ℕ) : ℚ :=
  if prices.length < period + 1 then 0
  else
    let returns := (List.zipWith (fun prev cur => (prev, cur)) prices (prices.drop 1)).filterMap
      (fun pc => if pc.1 ≠ 0 then some ((pc.2 - pc.1) / pc.1) else Option.none)
    if returns.length < period then 0
    else sq (popVariance (returns.drop (returns.length - period)))

end TechnicalIndicators

/-! ## The trading strategy (`src/strategies/trading_strategy.py`) -/

/-- A Python value as found in an asset-data dictionary. -/
inductive PyVal where
  | num (q : ℚ)
  | str (s : String)
  | pynone
  deriving DecidableEq

/-- An asset-data dictionary: an association list from string keys to values. -/
def AssetData : Type := List (String × PyVal)

/-- `d.get(k)` / `k in d`. -/
def AssetData.get? (d : AssetData) (k : String) : Option PyVal :=
  (List.find? (fun p => p.1 = k) d).map Prod.snd

/-- Python `float(x)`: succeeds on numbers, raises `ValueError`/`TypeError`
on non-numeric strings and on `None`. -/
def pyFloat : PyVal → Except String ℚ
  | PyVal.num q => Except.ok q
  | PyVal.str s => Except.error ("could not convert string to float: " ++ s)
  | PyVal.pynone => Except.error "float() argument must be a string or a real number, not NoneType"

/-- Python `x.upper()`: succeeds on strings, raises `AttributeError` on any
other value. -/
def pyUpper : PyVal → Except String String
  | PyVal.str s => Except.ok s.toUpper
  | _ => Except.error "object has no attribute upper"

/-- The dictionary returned by `_extract_price_data`; a key that a branch does
not set is the empty list (every consumer reads absent keys with
`.get(key, [])`). -/
structure PriceData where
  close : List ℚ := []
  opn : List ℚ := []
  high : List ℚ := []
  low : List ℚ := []
  volume : List ℚ := []
  deriving DecidableEq

/-- The dictionary returned by `ml_predictor.predict` (ml_predictor.py lines
286-291); only its `probability` entry is consumed by the strategy. -/
structure MLPrediction where
  probability : ℚ
  deriving DecidableEq

/-- External collaborators that the strategy calls but that are not
reproducible inside the embedding: `np.std`/`** 0.5` square roots (`sqrt`),
the seeded numpy random walk of `_generate_mock_historical_data` (`mock`),
the trained logistic-regression oracle (`predict`, `None` when untrained),
percentage formatting of f-strings (`fmtPct`) and the wall clock (`now`). -/
structure Externals where
  sqrt : ℚ → ℚ
  mock : ℚ → ℕ → List ℚ
  predict : PriceData → Option MLPrediction
  fmtPct : ℚ → String
  now : String

/-- `xs[-1] if xs else 0`. -/
def lastOr0 (xs : List ℚ) : ℚ := xs.getLast?.getD 0

/-- `TradingStrategy._extract_price_data` (trading_strategy.py lines 76-105):
dispatch on key presence; any failing `float()` is caught by the method's own
`try/except`, which returns `None`. -/
def extractPriceData (d : AssetData) : Option PriceData :=
  if (d.get? "current_price").isSome then
    match pyFloat ((d.get? "current_price").getD (PyVal.num 0)),
          pyFloat ((d.get? "high_24h").getD (PyVal.num 0)),
          pyFloat ((d.get? "low_24h").getD (PyVal.num 0)),
          pyFloat ((d.get? "total_volume").getD (PyVal.num 0)) with
    | Except.ok c, Except.ok h, Except.ok l, Except.ok v =>
        some { close := [c], high := [h], low := [l], volume := [v] }
    | _, _, _, _ => Option.none
  else if (d.get? "收盘").isSome then
    match pyFloat ((d.get? "收盘").getD (PyVal.num 0)),
          pyFloat ((d.get? "开盘").getD (PyVal.num 0)),
          pyFloat ((d.get? "最高").getD (PyVal.num 0)),
          pyFloat ((d.get? "最低").getD (PyVal.num 0)),
          pyFloat ((d.get? "成交量").getD (PyVal.num 0)) with
    | Except.ok c, Except.ok o, Except.ok h, Except.ok l, Except.ok v =>
        some { close := [c], opn := [o], high := [h], low := [l], volume := [v] }
    | _, _, _, _, _ => Option.none
  else if (d.get? "dwjz").isSome then
    match pyFloat ((d.get? "dwjz").getD (PyVal.num 0)) with
    | Except.ok c => some { close := [c], volume := [1] }
    | Except.error _ => Option.none
  else Option.none

/-- An elementary signal dictionary `{'type': .., 'reason': .., 'strength': ..}`. -/
structure ElemSignal where
  type : String
  reason : String
  strength : String
  deriving DecidableEq

structure MacdInd where
  macd : ℚ
  signal : ℚ
  histogram : ℚ
  deriving DecidableEq

structure BBInd where
  upper : ℚ
  middle : ℚ
  lower : ℚ
  position : ℚ
  deriving DecidableEq

structure MAInd where
  sma5 : ℚ
  sma20 : ℚ
  priceVsSma5 : ℚ
  priceVsSma20 : ℚ
  deriving DecidableEq

/-- The `indicators` dictionary built by `_technical_analysis`; a key is
present exactly when the corresponding indicator produced output. -/
structure Indicators where
  rsi : Option ℚ := Option.none
  macd : Option MacdInd := Option.none
  bollingerBands : Option BBInd := Option.none
  movingAverages : Option MAInd := Option.none
  volume : Option TechnicalIndicators.VolumeResult := Option.none
  deriving DecidableEq

structure TechResult where
  indicators : Indicators
  signals : List ElemSignal
  deriving DecidableEq

/-- The body of `TradingStrategy._technical_analysis` after its length guard
(lines 114-202).  After the guard the source reads `closes` only through
`closes[-1]` (lines 115, 152, 176), so the body is a function of the last
close and the volume list alone. -/
def technicalAnalysisCore (ext : Externals) (lastClose : ℚ) (volumes : List ℚ) :
    TechResult :=
  let hist := ext.mock lastClose 30
  let rsiValues := TechnicalIndicators.rsi hist 14
  let rsiSignals : List ElemSignal :=
    match rsiValues.getLast? with
    | some r =>
        if r < 30 then [⟨"buy", "RSI超卖", "medium"⟩]
        else if r > 70 then [⟨"sell", "RSI超买", "medium"⟩]
        else []
    | Option.none => []
  let macdData := TechnicalIndicators.macd hist 12 26 9
  let macdInd : Option MacdInd :=
    match macdData.macd.getLast?, macdData.signal.getLast? with
    | some m, some s => some ⟨m, s, macdData.histogram.getLast?.getD 0⟩
    | _, _ => Option.none
  let macdSignals : List ElemSignal :=
    match macdData.macd.getLast?, macdData.signal.getLast? with
    | some m, some s =>
        if m > s ∧ macdData.histogram.getLast?.getD 0 > 0 then
          [⟨"buy", "MACD金叉", "strong"⟩]
        else if m < s ∧ macdData.histogram.getLast?.getD 0 < 0 then
          [⟨"sell", "MACD死叉", "strong"⟩]
        else []
    | _, _ => []
  let bbData := TechnicalIndicators.bollinger_bands ext.sqrt hist 20 2
  let bbInd : Option BBInd :=
    match bbData.upper.getLast?, bbData.lower.getLast? with
    | some u, some l =>
        some ⟨u, bbData.middle.getLast?.getD 0, l,
              if u ≠ l then (lastClose - l) / (u - l) else 1/2⟩
    | _, _ => Option.none
  let bbSignals : List ElemSignal :=
    match bbData.upper.getLast?, bbData.lower.getLast? with
    | some u, some l =>
        if lastClose ≤ l then [⟨"buy", "价格触及布林带下轨", "medium"⟩]
        else if lastClose ≥ u then [⟨"sell", "价格触及布林带上轨", "medium"⟩]
        else []
    | _, _ => []
  let sma5 := TechnicalIndicators.sma hist 5
  let sma20 := TechnicalIndicators.sma hist 20
  let maInd : Option MAInd :=
    match sma5.getLast?, sma20.getLast? with
    | some s5, some s20 =>
        some ⟨s5, s20,
              if s5 ≠ 0 then lastClose / s5 else 1,
              if s20 ≠ 0 then lastClose / s20 else 1⟩
    | _, _ => Option.none
  let maSignals : List ElemSignal :=
    match sma5.getLast?, sma20.getLast? with
    | some s5, some s20 =>
        if s5 > s20 ∧ lastClose > s5 then [⟨"buy", "均线多头排列", "medium"⟩]
        else if s5 < s20 ∧ lastClose < s5 then [⟨"sell", "均线空头排列", "medium"⟩]
        else []
    | _, _ => []
  let volInd : Option TechnicalIndicators.VolumeResult :=
    if volumes.isEmpty then Option.none
    else some (TechnicalIndicators.volume_analysis volumes 10)
  let volSignals : List ElemSignal :=
    match volInd with
    | some va =>
        if va.isAbnormal = true ∧ va.volumeRatio > 2 then
          [⟨"buy", "成交量异常放大", "medium"⟩]
        else []
    | Option.none => []
  { indicators :=
      { rsi := rsiValues.getLast?, macd := macdInd, bollingerBands := bbInd,
        movingAverages := maInd, volume := volInd },
    signals := rsiSignals ++ macdSignals ++ bbSignals ++ maSignals ++ volSignals }

/-- `TradingStrategy._technical_analysis` (lines 107-206): fewer than 2 closes
yields the empty result, otherwise the indicators are computed on the mocked
history seeded from `closes[-1]` alone. -/
def technicalAnalysis (ext : Externals) (pd : PriceData) : TechResult :=
  if pd.close.length < 2 then { indicators := {}, signals := [] }
  else technicalAnalysisCore ext (lastOr0 pd.close) pd.volume

/-- ML weight of `_generate_signal` (lines 222-231): probability above 0.6
adds 2, above 0.4 adds 1, otherwise subtracts 1; no prediction contributes 0. -/
def mlWeightOf : Option MLPrediction → ℤ
  | Option.none => 0
  | some p =>
      if p.probability > 3/5 then 2
      else if p.probability > 2/5 then 1
      else -1

/-- `TradingStrategy._calculate_confidence` (lines 422-429). -/
def calculateConfidence (score : ℤ) (signalCount : ℕ) : String :=
  if |score| ≥ 4 ∧ signalCount ≥ 3 then "high"
  else if |score| ≥ 2 ∧ signalCount ≥ 2 then "medium"
  else "low"

/-- Weight of one elementary signal in the aggregation: 2 for a strong signal,
1 otherwise (lines 219-220). -/
def sigWeight (s : ElemSignal) : ℤ := if s.strength = "strong" then 2 else 1

/-- The composite-signal dictionary.  The count/contribution/score entries are
`Option`s because the empty-result dictionary of `_create_empty_result`
(lines 459-463) lacks those keys. -/
structure CompositeSignal where
  type : String
  strength : ℤ
  confidence : String
  buySignalsCount : Option ℕ := Option.none
  sellSignalsCount : Option ℕ := Option.none
  mlContribution : Option ℤ := Option.none
  totalScore : Option ℤ := Option.none
  deriving DecidableEq

/-- `TradingStrategy._generate_signal` (lines 208-256).  Its body cannot raise
(every dictionary access is on keys the callers always provide), so the
`except` branch of lines 258-268 is dead and not modelled. -/
def generateSignal (ta : TechResult) (mlp : Option MLPrediction) :
    CompositeSignal :=
  let buySignals := ta.signals.filter (fun s => s.type = "buy")
  let sellSignals := ta.signals.filter (fun s => s.type = "sell")
  let totalScore : ℤ :=
    (buySignals.map sigWeight).sum - (sellSignals.map sigWeight).sum + mlWeightOf mlp
  { type :=
      if totalScore ≥ 4 then "strong_buy"
      else if totalScore ≥ 2 then "buy"
      else if totalScore ≤ -4 then "strong_sell"
      else if totalScore ≤ -2 then "sell"
      else "hold",
    strength := |totalScore|,
    confidence := calculateConfidence totalScore ta.signals.length,
    buySignalsCount := some buySignals.length,
    sellSignalsCount := some sellSignals.length,
    mlContribution := some (mlWeightOf mlp),
    totalScore := some totalScore }

/-- Round-half-to-even on rationals, the rounding mode of Python's `round`. -/
def roundHalfEven (q : ℚ) : ℤ :=
  if q - ⌊q⌋ < 1/2 then ⌊q⌋
  else if q - ⌊q⌋ > 1/2 then ⌊q⌋ + 1
  else if ⌊q⌋ % 2 = 0 then ⌊q⌋ else ⌊q⌋ + 1

/-- Python `round(q, n)`. -/
def pyRound (q : ℚ) (n : ℕ) : ℚ := (roundHalfEven (q * 10 ^ n) : ℚ) / 10 ^ n

/-- `stop_loss_pct` of `Config.RISK_PARAMS` (settings.py line 103). -/
def stopLossPct : ℚ := 1/20

/-- `take_profit_pct` of `Config.RISK_PARAMS` (settings.py line 104). -/
def takeProfitPct : ℚ := 3/20

/-- `volatility_threshold` of `Config.RISK_PARAMS` (settings.py line 105). -/
def volatilityThreshold : ℚ := 3/10

/-- The un-rounded (entry, stop-loss, take-profit) triple of
`_calculate_entry_exit_points` (lines 279-297), by composite-signal type. -/
def rawEntryStopTake (currentPrice : ℚ) (ty : String) : ℚ × ℚ × ℚ :=
  if ty = "buy" ∨ ty = "strong_buy" then
    (currentPrice * (199/200), currentPrice * (1 - stopLossPct),
     currentPrice * (1 + takeProfitPct))
  else if ty = "sell" ∨ ty = "strong_sell" then
    (currentPrice * (201/200), currentPrice * (1 + stopLossPct),
     currentPrice * (1 - takeProfitPct))
  else
    (currentPrice, currentPrice * (1 - stopLossPct),
     currentPrice * (1 + takeProfitPct))

/-- The entry/exit dictionary.  `riskReward` is an `Option` because the
zero-price branch of line 277 returns a dictionary without the
`risk_reward_ratio` key. -/
structure EntryExit where
  entryPrice : ℚ
  stopLoss : ℚ
  takeProfit : ℚ
  riskReward : Option ℚ
  deriving DecidableEq

/-- `TradingStrategy._calculate_entry_exit_points` (lines 270-308). -/
def calculateEntryExitPoints (pd : PriceData) (sig : CompositeSignal) :
    EntryExit :=
  let currentPrice := lastOr0 pd.close
  if currentPrice = 0 then ⟨0, 0, 0, Option.none⟩
  else
    let t := rawEntryStopTake currentPrice sig.type
    ⟨pyRound t.1 4, pyRound t.2.1 4, pyRound t.2.2 4,
     some (if 0 < |t.1 - t.2.1| then pyRound (|t.2.2 - t.1| / |t.1 - t.2.1|) 2
           else 0)⟩

/-- The risk-assessment dictionary.  `score` and `volatility` are `Option`s
because the empty-closes branch (line 316) returns a dictionary without
those keys. -/
structure RiskAssessment where
  level : String
  score : Option ℕ
  factors : List String
  volatility : Option ℚ
  deriving DecidableEq

/-- `TradingStrategy._assess_risk` (lines 310-374). -/
def assessRisk (ext : Externals) (pd : PriceData) (ta : TechResult) : RiskAssessment :=
  if pd.close.isEmpty then ⟨"unknown", Option.none, [], Option.none⟩
  else
    let volOpt : Option ℚ :=
      if 1 < pd.close.length then
        some (TechnicalIndicators.calculate_volatility ext.sqrt
          (ext.mock (lastOr0 pd.close) 20) 20)
      else Option.none
    let volPair : List String × ℕ :=
      match volOpt with
      | some v =>
          if v > volatilityThreshold then (["高波动率"], 2)
          else if v > volatilityThreshold * (1/2) then (["中等波动率"], 1)
          else ([], 0)
      | Option.none => ([], 0)
    let rsiPair : List String × ℕ :=
      match ta.indicators.rsi with
      | some r => if r > 80 ∨ r < 20 then (["RSI极值"], 1) else ([], 0)
      | Option.none => ([], 0)
    let bbPair : List String × ℕ :=
      match ta.indicators.bollingerBands with
      | some bb =>
          if bb.position > 9/10 ∨ bb.position < 1/10 then (["价格偏离均值"], 1)
          else ([], 0)
      | Option.none => ([], 0)
    let vrPair : List String × ℕ :=
      match ta.indicators.volume with
      | some va => if va.volumeRatio < 1/2 then (["成交量萎缩"], 1) else ([], 0)
      | Option.none => ([], 0)
    let score := volPair.2 + rsiPair.2 + bbPair.2 + vrPair.2
    ⟨if score ≥ 4 then "high" else if score ≥ 2 then "medium" else "low",
     some score,
     volPair.1 ++ rsiPair.1 ++ bbPair.1 ++ vrPair.1,
     some (volOpt.getD 0)⟩

/-- `TradingStrategy._generate_recommendation_reason` (lines 376-407). -/
def generateRecommendationReason (ext : Externals) (ta : TechResult)
    (mlp : Option MLPrediction) (sig : CompositeSignal) : String :=
  let reasons := ta.signals.map (fun s => s.reason) ++
    (match mlp with
     | some p =>
         if p.probability ≠ 1/2 then
           if p.probability > 3/5 then ["AI模型预测上涨概率" ++ ext.fmtPct p.probability]
           else if p.probability < 2/5 then ["AI模型预测下跌概率" ++ ext.fmtPct (1 - p.probability)]
           else []
         else []
     | Option.none => []) ++
    (if sig.type = "strong_buy" ∨ sig.type = "buy" then ["多项指标显示买入机会"]
     else if sig.type = "strong_sell" ∨ sig.type = "sell" then ["多项指标显示卖出信号"]
     else [])
  if reasons.isEmpty then "暂无明确信号"
  else String.intercalate "; " (reasons.take 3)

/-- The asset-info dictionary.  `symbol` and `name` keep the raw Python values
stored by `_extract_asset_info` (the non-crypto branches copy whatever value
sits in the source dictionary). -/
structure AssetInfo where
  symbol : PyVal
  name : PyVal
  type : String
  deriving DecidableEq

/-- `TradingStrategy._extract_asset_info` (lines 431-452).  The crypto branch
calls `.upper()` on the raw `symbol` value, which raises `AttributeError`
when that value is not a string — hence the `Except`. -/
def extractAssetInfo (d : AssetData) : Except String AssetInfo :=
  if (d.get? "symbol").isSome then
    match pyUpper ((d.get? "symbol").getD (PyVal.str "")) with
    | Except.ok s => Except.ok ⟨PyVal.str s, (d.get? "name").getD (PyVal.str ""), "crypto"⟩
    | Except.error e => Except.error e
  else if (d.get? "代码").isSome then
    Except.ok ⟨(d.get? "代码").getD (PyVal.str ""), (d.get? "名称").getD (PyVal.str ""), "stock"⟩
  else if (d.get? "fundcode").isSome then
    Except.ok ⟨(d.get? "fundcode").getD (PyVal.str ""), (d.get? "name").getD (PyVal.str ""), "fund"⟩
  else Except.ok ⟨PyVal.str "", PyVal.str "", "unknown"⟩

/-- The full analysis-result dictionary returned by `analyze_asset`. -/
structure AnalysisResult where
  assetInfo : AssetInfo
  currentPrice : ℚ
  signal : CompositeSignal
  technicalAnalysis : TechResult
  mlPrediction : Option MLPrediction
  entryExitPoints : EntryExit
  riskAssessment : RiskAssessment
  recommendationReason : String
  analysisTime : String
  deriving DecidableEq

/-- `TradingStrategy._create_empty_result` (lines 454-470).  It calls
`_extract_asset_info`, so it raises whenever that raises. -/
def createEmptyResult (ext : Externals) (d : AssetData) : Except String AnalysisResult :=
  match extractAssetInfo d with
  | Except.error e => Except.error e
  | Except.ok ai =>
      Except.ok
        { assetInfo := ai,
          currentPrice := 0,
          signal := { type := "hold", strength := 0, confidence := "low" },
          technicalAnalysis := { indicators := {}, signals := [] },
          mlPrediction := Option.none,
          entryExitPoints := ⟨0, 0, 0, Option.none⟩,
          riskAssessment := ⟨"unknown", Option.none, [], Option.none⟩,
          recommendationReason := "数据不足",
          analysisTime := ext.now }

/-- The `try` body of `TradingStrategy.analyze_asset` (lines 34-70). -/
def analyzeAssetBody (ext : Externals) (d : AssetData) : Except String AnalysisResult :=
  match extractPriceData d with
  | Option.none => createEmptyResult ext d
  | some pd =>
      let ta := technicalAnalysis ext pd
      let mlPred := ext.predict pd
      let sig := generateSignal ta mlPred
      match extractAssetInfo d with
      | Except.error e => Except.error e
      | Except.ok ai =>
          Except.ok
            { assetInfo := ai,
              currentPrice := lastOr0 pd.close,
              signal := sig,
              technicalAnalysis := ta,
              mlPrediction := mlPred,
              entryExitPoints := calculateEntryExitPoints pd sig,
              riskAssessment := assessRisk ext pd ta,
              recommendationReason := generateRecommendationReason ext ta mlPred sig,
              analysisTime := ext.now }

/-- `TradingStrategy.analyze_asset` (lines 24-74): the `except` handler of
line 72-74 answers any failure of the body with `_create_empty_result` —
which can itself raise (and then the exception escapes `analyze_asset`). -/
def analyzeAsset (ext : Externals) (d : AssetData) : Except String AnalysisResult :=
  match analyzeAssetBody ext d with
  | Except.ok r => Except.ok r
  | Except.error _ => createEmptyResult ext d

/-! ## Spec-side definitions and concrete instances used by the theorems -/

open TechnicalIndicators

/-- The spec's aggregation weight: `Σ(2 if strong else 1)` over a signal list. -/
def strengthSum (signals : List ElemSignal) : ℤ :=
  (signals.map (fun s => if s.strength = "strong" then (2 : ℤ) else 1)).sum

/-- The spec's composite-type score bands:
`≥4→strong_buy, ≥2→buy, ≤−4→strong_sell, ≤−2→sell, else hold`. -/
def scoreBand (total : ℤ) : String :=
  if total ≥ 4 then "strong_buy"
  else if total ≥ 2 then "buy"
  else if total ≤ -4 then "strong_sell"
  else if total ≤ -2 then "sell"
  else "hold"

/-- A concrete instance of the external collaborators, used to evaluate the
engine on specific inputs. -/
def ext0 : Externals :=
  { sqrt := fun _ => 0,
    mock := fun c n => List.replicate n c,
    predict := fun _ => Option.none,
    fmtPct := fun _ => "",
    now := "" }

/-- Spec-side: index `i` is a weak local minimum of `lows` over the symmetric
window `[i-window, i+window]` — no other bar in the window is strictly lower
(ties allowed). -/
def isWindowMin (lows : List ℚ) (window i : ℕ) : Prop :=
  ∀ j ∈ Finset.Icc (i - window) (i + window), j ≠ i → lows.getD i 0 ≤ lows.getD j 0

/-- Spec-side: index `i` is a weak local maximum of `highs` over the symmetric
window (ties allowed). -/
def isWindowMax (highs : List ℚ) (window i : ℕ) : Prop :=
  ∀ j ∈ Finset.Icc (i - window) (i + window), j ≠ i → highs.getD j 0 ≤ highs.getD i 0

/-- The claim's predicate: a strict local minimum over the symmetric window
(a tie with any other bar disqualifies). -/
def isStrictWindowMin (lows : List ℚ) (window i : ℕ) : Prop :=
  ∀ j ∈ Finset.Icc (i - window) (i + window), j ≠ i → lows.getD i 0 < lows.getD j 0

instance (lows : List ℚ) (window i : ℕ) : Decidable (isWindowMin lows window i) := by
  unfold isWindowMin
  infer_instance

instance (highs : List ℚ) (window i : ℕ) : Decidable (isWindowMax highs window i) := by
  unfold isWindowMax
  infer_instance

instance (lows : List ℚ) (window i : ℕ) : Decidable (isStrictWindowMin lows window i) := by
  unfold isStrictWindowMin
  infer_instance

/-- Eleven identical bars: every low ties with every other one. -/
def flatBars : List ℚ := List.replicate 11 1

/-- Eleven strictly ascending bars. -/
def ascBars : List ℚ := (List.range 11).map (fun i => (i : ℚ))

/-- The end-to-end scenario input of the claim: a 30-bar price history rising
monotonically from 100 to 130 (100, 101, …, 128, 130) with flat volume. -/
def monotoneRise : PriceData :=
  { close := (List.range 29).map (fun i => (100 : ℚ) + i) ++ [130],
    volume := List.replicate 30 1000 }

/-- A comparison input with no rise at all: 30 flat bars at 130, same volume. -/
def flatAt130 : PriceData :=
  { close := List.replicate 30 (130 : ℚ),
    volume := List.replicate 30 1000 }

/-- A composite hold signal, as stored by the empty result. -/
def sigHold : CompositeSignal :=
  { type := "hold", strength := 0, confidence := "low" }

/-- The current price of a successful analysis (`Option.none` when the call
raised). -/
def okPrice : Except String AnalysisResult → Option ℚ
  | Except.ok r => some r.currentPrice
  | Except.error _ => Option.none

/-- The composite-signal type of a successful analysis. -/
def okSignalType : Except String AnalysisResult → Option String
  | Except.ok r => some r.signal.type
  | Except.error _ => Option.none

/-- The recommendation reason of a successful analysis. -/
def okReason : Except String AnalysisResult → Option String
  | Except.ok r => some r.recommendationReason
  | Except.error _ => Option.none

/-- A fund-style asset record carrying only a net value. -/
def d9 : AssetData := [("dwjz", PyVal.num 2)]

/-- The price dictionary extracted from `d9`. -/
def pd9 : PriceData := { close := [2], volume := [1] }

/-- A throwaway default used to project a successful analysis result. -/
def fallbackResult : AnalysisResult :=
  { assetInfo := ⟨PyVal.str "", PyVal.str "", "unknown"⟩,
    currentPrice := 0,
    signal := { type := "hold", strength := 0, confidence := "low" },
    technicalAnalysis := { indicators := {}, signals := [] },
    mlPrediction := Option.none,
    entryExitPoints := ⟨0, 0, 0, Option.none⟩,
    riskAssessment := ⟨"unknown", Option.none, [], Option.none⟩,
    recommendationReason := "",
    analysisTime := "" }

/-- The concrete analysis result for `d9` under `ext0`. -/
def r9 : AnalysisResult := (analyzeAsset ext0 d9).toOption.getD fallbackResult

/-- C3: the composite type is a function of the total score through the spec's
bands, the strength is the absolute score, and the boundary cases land on
`strong_buy` at 4 and `buy` at 3. -/
theorem generate_signal_score_bands (ta : TechResult) (mlp : Option MLPrediction) :
    (generateSignal ta mlp).totalScore =
      some (strengthSum (ta.signals.filter (fun s => s.type = "buy"))
            - strengthSum (ta.signals.filter (fun s => s.type = "sell"))
            + mlWeightOf mlp) ∧
    (generateSignal ta mlp).type = scoreBand ((generateSignal ta mlp).totalScore.getD 0) ∧
    (generateSignal ta mlp).strength = |(generateSignal ta mlp).totalScore.getD 0| ∧
    scoreBand 4 = "strong_buy" ∧ scoreBand 3 = "buy" :=
  ⟨rfl, rfl, rfl, rfl, rfl⟩

/-- C6: `sma` and `ema` produce `max 0 (len − period + 1)` values; in
particular both are empty on inputs shorter than the period. -/
theorem sma_ema_length (prices : List ℚ) (period : ℕ) (hp : 1 ≤ period) :
    ((sma prices period).length : ℤ) = max 0 ((prices.length : ℤ) - period + 1) ∧
    ((ema prices period).length : ℤ) = max 0 ((prices.length : ℤ) - period + 1) ∧
    (prices.length < period → sma prices period = [] ∧ ema prices period = []) := by
  by_cases h : prices.length < period
  · have hs : sma prices period = [] := by simp only [sma, if_pos h]
    have he : ema prices period = [] := by simp only [ema, if_pos h]
    refine ⟨?_, ?_, fun _ => ⟨hs, he⟩⟩
    · rw [hs]
      simp only [List.length_nil, Nat.cast_zero]
      omega
    · rw [he]
      simp only [List.length_nil, Nat.cast_zero]
      omega
  · have hs : (sma prices period).length = prices.length - period + 1 := by
      simp only [sma, if_neg h, List.length_map, List.length_range]
    have he : (ema prices period).length = prices.length - period + 1 := by
      simp only [ema, if_neg h, List.length_scanl, List.length_drop]
    push_neg at h
    refine ⟨?_, ?_, fun hc => absurd hc (not_lt.mpr h)⟩
    · rw [hs]
      omega
    · rw [he]
      omega

/-- C6 witness at a concrete input. -/
theorem sma_ema_length_at_3_2 :
    ((sma [1, 2, 3] 2).length : ℤ) = max 0 (((
      [1, 2, 3] : List ℚ).length : ℤ) - 2 + 1) ∧
    ((ema [1, 2, 3] 2).length : ℤ) = max 0 (((
      [1, 2, 3] : List ℚ).length : ℤ) - 2 + 1) ∧
    (([1, 2, 3] : List ℚ).length < 2 → sma [1, 2, 3] 2 = [] ∧ ema [1, 2, 3] 2 = []) :=
  sma_ema_length [1, 2, 3] 2 (by decide)

/-- C8: the histogram has exactly the signal line's length and each entry is
the front-truncated MACD-line value minus the matching signal value; inputs
shorter than the slow period yield three empty series. -/
theorem macd_histogram_alignment (prices : List ℚ) (fp sp gp : ℕ) :
    (prices.length < sp → macd prices fp sp gp = ⟨[], [], []⟩) ∧
    (macd prices fp sp gp).histogram.length = (macd prices fp sp gp).signal.length ∧
    ∀ i, i < (macd prices fp sp gp).signal.length →
      (macd prices fp sp gp).histogram.getD i 0 =
        (macd prices fp sp gp).macd.getD
          ((macd prices fp sp gp).macd.length - (macd prices fp sp gp).signal.length + i) 0
        - (macd prices fp sp gp).signal.getD i 0 := by
  unfold macd
  by_cases h : prices.length < sp
  · simp [if_pos h]
  · simp only [if_neg h]
    refine ⟨fun hc => absurd hc h, ?_, ?_⟩
    · simp only [List.length_map, List.length_range]
    · intro i hi
      simp only [List.getD_eq_getElem?_getD, List.getElem?_map, List.getElem?_range, hi,
        if_pos hi, Option.map_some', Option.getD_some]

/-- C8 witness at concrete inputs (an input shorter than the slow period and
one long enough for a non-empty signal line). -/
theorem macd_histogram_alignment_at :
    macd ([] : List ℚ) 1 1 1 = ⟨[], [], []⟩ ∧
    (macd [1, 2] 1 1 1).histogram.length = (macd [1, 2] 1 1 1).signal.length ∧
    (macd [1, 2] 1 1 1).histogram.getD 0 0 =
      (macd [1, 2] 1 1 1).macd.getD
        ((macd [1, 2] 1 1 1).macd.length - (macd [1, 2] 1 1 1).signal.length + 0) 0
      - (macd [1, 2] 1 1 1).signal.getD 0 0 :=
  ⟨(macd_histogram_alignment [] 1 1 1).1 (by decide),
   (macd_histogram_alignment [1, 2] 1 1 1).2.1,
   (macd_histogram_alignment [1, 2] 1 1 1).2.2 0 (by decide)⟩

/-- The Wilder update keeps a nonnegative average nonnegative. -/
theorem wilder_nonneg (period : ℕ) (hp : 1 ≤ period) (prev cur : ℚ)
    (h1 : 0 ≤ prev) (h2 : 0 ≤ cur) : 0 ≤ wilder period prev cur := by
  unfold wilder
  have hper : (1 : ℚ) ≤ (period : ℚ) := by exact_mod_cast hp
  apply div_nonneg
  · nlinarith
  · linarith

/-- The RSI formula sends nonnegative averages into `[0, 100]`. -/
theorem rsiVal_bounds (g l : ℚ) (hg : 0 ≤ g) (hl : 0 ≤ l) :
    0 ≤ rsiVal g l ∧ rsiVal g l ≤ 100 := by
  unfold rsiVal
  split_ifs with h
  · norm_num
  · have hl' : 0 < l := lt_of_le_of_ne hl (Ne.symm h)
    have hrs : 0 ≤ g / l := div_nonneg hg hl'.le
    have h2 : 100 / (1 + g / l) ≤ 100 := div_le_self (by norm_num) (by linarith)
    have h3 : 0 ≤ 100 / (1 + g / l) := div_nonneg (by norm_num) (by linarith)
    constructor <;> linarith

/-- Scanning the Wilder update over nonnegative (gain, loss) pairs from a
nonnegative seed keeps every intermediate pair nonnegative. -/
theorem scanl_wilder_nonneg (period : ℕ) (hp : 1 ≤ period) :
    ∀ (l : List (ℚ × ℚ)) (init : ℚ × ℚ), 0 ≤ init.1 → 0 ≤ init.2 →
      (∀ x ∈ l, 0 ≤ x.1 ∧ 0 ≤ x.2) →
      ∀ a ∈ l.scanl (fun a gl => (wilder period a.1 gl.1, wilder period a.2 gl.2)) init,
        0 ≤ a.1 ∧ 0 ≤ a.2 := by
  intro l
  induction l with
  | nil =>
      intro init h1 h2 _ a ha
      rw [List.scanl_nil, List.mem_singleton] at ha
      exact ha ▸ ⟨h1, h2⟩
  | cons x xs ih =>
      intro init h1 h2 hl a ha
      rw [List.scanl_cons, List.singleton_append, List.mem_cons] at ha
      rcases ha with ha | ha
      · exact ha ▸ ⟨h1, h2⟩
      · have hx := hl x (List.mem_cons_self x xs)
        exact ih (wilder period init.1 x.1, wilder period init.2 x.2)
          (wilder_nonneg period hp init.1 x.1 h1 hx.1)
          (wilder_nonneg period hp init.2 x.2 h2 hx.2)
          (fun y hy => hl y (List.mem_cons_of_mem x hy)) a ha

/-- Every per-bar gain is nonnegative. -/
theorem gainsOf_nonneg (prices : List ℚ) : ∀ x ∈ gainsOf prices, 0 ≤ x := by
  intro x hx
  obtain ⟨c, _, rfl⟩ := List.mem_map.mp hx
  exact le_max_right c 0

/-- Every per-bar loss is nonnegative. -/
theorem lossesOf_nonneg (prices : List ℚ) : ∀ x ∈ lossesOf prices, 0 ≤ x := by
  intro x hx
  obtain ⟨c, _, rfl⟩ := List.mem_map.mp hx
  exact abs_nonneg _

/-- Every smoothed (average gain, average loss) pair of the RSI computation is
componentwise nonnegative. -/
theorem rsiAvgs_nonneg (prices : List ℚ) (period : ℕ) (hp : 1 ≤ period) :
    ∀ a ∈ rsiAvgs prices period, 0 ≤ a.1 ∧ 0 ≤ a.2 := by
  intro a ha
  unfold rsiAvgs at ha
  refine scanl_wilder_nonneg period hp _ _ ?_ ?_ ?_ a ha
  · exact div_nonneg
      (List.sum_nonneg fun x hx => gainsOf_nonneg prices x (List.mem_of_mem_take hx))
      (Nat.cast_nonneg period)
  · exact div_nonneg
      (List.sum_nonneg fun x hx => lossesOf_nonneg prices x (List.mem_of_mem_take hx))
      (Nat.cast_nonneg period)
  · intro x hx
    have hc := List.of_mem_zip hx
    exact ⟨gainsOf_nonneg prices x.1 (List.mem_of_mem_drop hc.1),
           lossesOf_nonneg prices x.2 (List.mem_of_mem_drop hc.2)⟩

/-- C7: on inputs with at least `period+1` bars every RSI value lies in
`[0, 100]`, the series is exactly the Wilder-average list mapped through the
RSI formula, and the formula returns exactly 100 whenever the smoothed
average loss is zero. -/
theorem rsi_bounds (prices : List ℚ) (period : ℕ) (hp : 1 ≤ period)
    (hlen : period + 1 ≤ prices.length) :
    (∀ v ∈ rsi prices period, 0 ≤ v ∧ v ≤ 100) ∧
    rsi prices period = (rsiAvgs prices period).map (fun a => rsiVal a.1 a.2) ∧
    (∀ a ∈ rsiAvgs prices period, a.2 = 0 → rsiVal a.1 a.2 = 100) := by
  have heq : rsi prices period = (rsiAvgs prices period).map (fun a => rsiVal a.1 a.2) := by
    unfold rsi
    rw [if_neg (by omega)]
  refine ⟨?_, heq, fun a _ h0 => by simp [rsiVal, h0]⟩
  intro v hv
  rw [heq] at hv
  obtain ⟨a, ha, rfl⟩ := List.mem_map.mp hv
  obtain ⟨h1, h2⟩ := rsiAvgs_nonneg prices period hp a ha
  exact rsiVal_bounds a.1 a.2 h1 h2

/-- C7 witness at a concrete input (one rise then one fall, period 1). -/
theorem rsi_bounds_at_121 :
    (∀ v ∈ rsi [1, 2, 1] 1, 0 ≤ v ∧ v ≤ 100) ∧
    rsi [1, 2, 1] 1 = (rsiAvgs [1, 2, 1] 1).map (fun a => rsiVal a.1 a.2) ∧
    (∀ a ∈ rsiAvgs [1, 2, 1] 1, a.2 = 0 → rsiVal a.1 a.2 = 100) :=
  rsi_bounds [1, 2, 1] 1 (by decide) (by decide)

/-- C4 (amended): with enough bars, the listed support (resp. resistance)
levels are exactly the lows (resp. highs) at indices that are WEAK local
extrema of the symmetric window — a bar that ties is still listed. -/
theorem support_resistance_weak_extrema (closes highs lows : List ℚ) (window : ℕ)
    (hl : lows.length = closes.length) (hh : highs.length = closes.length)
    (hlen : 2 * window + 1 ≤ closes.length) :
    (support_resistance_levels closes highs lows window).support =
      ((List.range' window (lows.length - 2 * window)).filter
        (fun i => decide (isWindowMin lows window i))).map (fun i => lows.getD i 0) ∧
    (support_resistance_levels closes highs lows window).resistance =
      ((List.range' window (highs.length - 2 * window)).filter
        (fun i => decide (isWindowMax highs window i))).map (fun i => highs.getD i 0) := by
  unfold support_resistance_levels
  rw [if_neg (by omega)]
  dsimp only
  constructor
  · congr 1
    apply List.filter_congr
    intro i hi
    have hiw : window ≤ i := (List.mem_range'_1.mp hi).1
    have hiff : ((List.range' (i - window) (2 * window + 1)).all
        (fun j => decide (j = i ∨ ¬ lows.getD j 0 < lows.getD i 0)) = true)
        ↔ isWindowMin lows window i := by
      simp only [List.all_eq_true, decide_eq_true_eq, isWindowMin, Finset.mem_Icc,
        List.mem_range'_1]
      constructor
      · intro h j hj hne
        rcases h j ⟨by omega, by omega⟩ with h' | h'
        · exact absurd h' hne
        · exact not_lt.mp h'
      · intro h j hj
        by_cases hje : j = i
        · exact Or.inl hje
        · exact Or.inr (not_lt.mpr (h j ⟨by omega, by omega⟩ hje))
    by_cases hP : isWindowMin lows window i
    · rw [decide_eq_true hP]
      exact hiff.mpr hP
    · rw [decide_eq_false hP]
      exact Bool.eq_false_iff.mpr (fun h => hP (hiff.mp h))
  · congr 1
    apply List.filter_congr
    intro i hi
    have hiw : window ≤ i := (List.mem_range'_1.mp hi).1
    have hiff : ((List.range' (i - window) (2 * window + 1)).all
        (fun j => decide (j = i ∨ ¬ highs.getD i 0 < highs.getD j 0)) = true)
        ↔ isWindowMax highs window i := by
      simp only [List.all_eq_true, decide_eq_true_eq, isWindowMax, Finset.mem_Icc,
        List.mem_range'_1]
      constructor
      · intro h j hj hne
        rcases h j ⟨by omega, by omega⟩ with h' | h'
        · exact absurd h' hne
        · exact not_lt.mp h'
      · intro h j hj
        by_cases hje : j = i
        · exact Or.inl hje
        · exact Or.inr (not_lt.mpr (h j ⟨by omega, by omega⟩ hje))
    by_cases hP : isWindowMax highs window i
    · rw [decide_eq_true hP]
      exact hiff.mpr hP
    · rw [decide_eq_false hP]
      exact Bool.eq_false_iff.mpr (fun h => hP (hiff.mp h))

/-- C4 counterexample: on eleven all-equal bars the centre bar is listed as a
support level even though it is not a strict local extremum (it ties with
every neighbour), while the claim's strict reading would list nothing. -/
theorem support_resistance_ties_counterexample :
    (support_resistance_levels flatBars flatBars flatBars 5).support = [1] ∧
    ¬ isStrictWindowMin flatBars 5 5 ∧
    ((List.range' 5 (flatBars.length - 2 * 5)).filter
      (fun i => decide (isStrictWindowMin flatBars 5 i))).map
      (fun i => flatBars.getD i 0) = [] := by
  refine ⟨by decide, by decide, by decide⟩

/-- C4 witness at a concrete input. -/
theorem support_resistance_weak_extrema_at :
    (support_resistance_levels ascBars ascBars ascBars 5).support =
      ((List.range' 5 (ascBars.length - 2 * 5)).filter
        (fun i => decide (isWindowMin ascBars 5 i))).map (fun i => ascBars.getD i 0) ∧
    (support_resistance_levels ascBars ascBars ascBars 5).resistance =
      ((List.range' 5 (ascBars.length - 2 * 5)).filter
        (fun i => decide (isWindowMax ascBars 5 i))).map (fun i => ascBars.getD i 0) :=
  support_resistance_weak_extrema ascBars ascBars ascBars 5 rfl rfl (by decide)

/-- C1: `_technical_analysis` discards the supplied history — it produces the
identical result on the monotonically rising 30-bar history and on a
completely flat one, for every mock-history generator, because after the
length guard it reads the closes only through `closes[-1]` (here 130) and
feeds `_generate_mock_historical_data(closes[-1], 30)` to every indicator.
The claimed consequences (RSI near 100 from the rise, a guaranteed MA-cross
buy signal) therefore cannot follow from the supplied history. -/
theorem technical_analysis_ignores_history (ext : Externals) :
    technicalAnalysis ext monotoneRise = technicalAnalysis ext flatAt130 := by
  unfold technicalAnalysis
  rw [if_neg (by decide), if_neg (by decide)]
  have h1 : lastOr0 monotoneRise.close = 130 := by decide
  have h2 : lastOr0 flatAt130.close = 130 := by decide
  have h3 : monotoneRise.volume = flatAt130.volume := rfl
  rw [h1, h2, h3]

/-- C2 (code bug): on the asset record whose `symbol` value is the number 5
(and which has no recognized price key) `analyze_asset` does not return a
recommendation at all: `_create_empty_result` calls `_extract_asset_info`,
whose `.upper()` on the non-string symbol raises `AttributeError` inside the
`try` body and again inside the `except` handler, so the exception escapes to
the caller.  This holds for every choice of the external collaborators. -/
theorem analyze_asset_raises_on_nonstring_symbol (ext : Externals) :
    analyzeAsset ext [("symbol", PyVal.num 5)] =
      Except.error "object has no attribute upper" := rfl

/-- Rounding half-to-even at a nonnegative rational is nonnegative. -/
theorem roundHalfEven_nonneg (q : ℚ) (h : 0 ≤ q) : 0 ≤ roundHalfEven q := by
  unfold roundHalfEven
  have h0 : 0 ≤ ⌊q⌋ := Int.le_floor.mpr (by exact_mod_cast h)
  split_ifs <;> omega

/-- Python rounding of a nonnegative rational is nonnegative. -/
theorem pyRound_nonneg (q : ℚ) (n : ℕ) (h : 0 ≤ q) : 0 ≤ pyRound q n := by
  unfold pyRound
  apply div_nonneg
  · exact_mod_cast roundHalfEven_nonneg _ (by positivity)
  · positivity

/-- C10: with no close or a zero last close the entry/exit record is all-zero
and has no risk/reward entry; with a nonzero last close all four entries are
present, the risk/reward ratio is nonnegative, and it is exactly 0 when the
raw entry price equals the raw stop-loss. -/
theorem entry_exit_fields (pd : PriceData) (sig : CompositeSignal) :
    (lastOr0 pd.close = 0 →
      calculateEntryExitPoints pd sig = ⟨0, 0, 0, Option.none⟩) ∧
    (lastOr0 pd.close ≠ 0 →
      ((calculateEntryExitPoints pd sig).riskReward.isSome = true ∧
       0 ≤ (calculateEntryExitPoints pd sig).riskReward.getD 0 ∧
       ((rawEntryStopTake (lastOr0 pd.close) sig.type).1 =
          (rawEntryStopTake (lastOr0 pd.close) sig.type).2.1 →
        (calculateEntryExitPoints pd sig).riskReward = some 0))) := by
  constructor
  · intro h
    unfold calculateEntryExitPoints
    rw [if_pos h]
  · intro h
    unfold calculateEntryExitPoints
    rw [if_neg h]
    dsimp only
    refine ⟨rfl, ?_, ?_⟩
    · rw [Option.getD_some]
      split_ifs with habs
      · exact pyRound_nonneg _ _ (div_nonneg (abs_nonneg _) (abs_nonneg _))
      · exact le_refl 0
    · intro heq
      rw [if_neg]
      rw [heq]
      simp

/-- C10 witness at concrete inputs (empty closes and a close of 2). -/
theorem entry_exit_fields_at :
    calculateEntryExitPoints ({ close := [] } : PriceData) sigHold =
      ⟨0, 0, 0, Option.none⟩ ∧
    ((calculateEntryExitPoints ({ close := [2] } : PriceData) sigHold).riskReward.isSome = true ∧
     0 ≤ (calculateEntryExitPoints ({ close := [2] } : PriceData) sigHold).riskReward.getD 0 ∧
     ((rawEntryStopTake (lastOr0 ({ close := [2] } : PriceData).close) sigHold.type).1 =
        (rawEntryStopTake (lastOr0 ({ close := [2] } : PriceData).close) sigHold.type).2.1 →
      (calculateEntryExitPoints ({ close := [2] } : PriceData) sigHold).riskReward = some 0)) :=
  ⟨(entry_exit_fields ({ close := [] } : PriceData) sigHold).1 (by decide),
   (entry_exit_fields ({ close := [2] } : PriceData) sigHold).2 (by decide)⟩

/-- C5 (amended): an asset record with none of the recognized price keys —
and whose `symbol` entry, when present, holds a string (otherwise
`analyze_asset` raises, see the C2 bug) — yields a recommendation with
current price 0, composite type `hold` and the Chinese insufficient-data
rationale `数据不足`. -/
theorem no_price_keys_empty_result (ext : Externals) (d : AssetData)
    (h1 : d.get? "current_price" = Option.none)
    (h2 : d.get? "收盘" = Option.none)
    (h3 : d.get? "dwjz" = Option.none)
    (h4 : ∀ v, d.get? "symbol" = some v → ∃ s, v = PyVal.str s) :
    okPrice (analyzeAsset ext d) = some 0 ∧
    okSignalType (analyzeAsset ext d) = some "hold" ∧
    okReason (analyzeAsset ext d) = some "数据不足" := by
  have hpd : extractPriceData d = Option.none := by
    unfold extractPriceData
    rw [h1, h2, h3]
    simp
  have hai : ∃ ai, extractAssetInfo d = Except.ok ai := by
    unfold extractAssetInfo
    by_cases hs : (d.get? "symbol").isSome
    · obtain ⟨v, hv⟩ := Option.isSome_iff_exists.mp hs
      obtain ⟨s, rfl⟩ := h4 v hv
      rw [if_pos hs, hv]
      exact ⟨_, rfl⟩
    · rw [if_neg hs]
      split_ifs <;> exact ⟨_, rfl⟩
  obtain ⟨ai, hai⟩ := hai
  have hce : createEmptyResult ext d = Except.ok
      { assetInfo := ai, currentPrice := 0,
        signal := { type := "hold", strength := 0, confidence := "low" },
        technicalAnalysis := { indicators := {}, signals := [] },
        mlPrediction := Option.none,
        entryExitPoints := ⟨0, 0, 0, Option.none⟩,
        riskAssessment := ⟨"unknown", Option.none, [], Option.none⟩,
        recommendationReason := "数据不足",
        analysisTime := ext.now } := by
    unfold createEmptyResult
    rw [hai]
  have hall : analyzeAsset ext d = createEmptyResult ext d := by
    unfold analyzeAsset analyzeAssetBody
    rw [hpd, hce]
  rw [hall, hce]
  exact ⟨rfl, rfl, rfl⟩

/-- C5 counterexample to the claim as stated: on a record with no recognized
price key the rationale is the Chinese `数据不足`, not the literal English
text `insufficient data` the claim names. -/
theorem rationale_is_chinese_counterexample :
    okReason (analyzeAsset ext0 [("name", PyVal.str "x")]) = some "数据不足" ∧
    "数据不足" ≠ "insufficient data" :=
  ⟨rfl, by decide⟩

/-- C5 witness at a concrete input (a fund record carrying no price key). -/
theorem no_price_keys_empty_result_at :
    okPrice (analyzeAsset ext0 [("fundcode", PyVal.str "000001")]) = some 0 ∧
    okSignalType (analyzeAsset ext0 [("fundcode", PyVal.str "000001")]) = some "hold" ∧
    okReason (analyzeAsset ext0 [("fundcode", PyVal.str "000001")]) = some "数据不足" :=
  no_price_keys_empty_result ext0 [("fundcode", PyVal.str "000001")] rfl rfl rfl
    (fun v hv => nomatch hv)

/-- Every price dictionary produced by `_extract_price_data` holds exactly one
close and one volume, and at most one entry in every other field. -/
theorem extractPriceData_single (d : AssetData) (pd : PriceData)
    (hpd : extractPriceData d = some pd) :
    pd.close.length = 1 ∧ pd.volume.length = 1 ∧
    pd.opn.length ≤ 1 ∧ pd.high.length ≤ 1 ∧ pd.low.length ≤ 1 := by
  unfold extractPriceData at hpd
  split_ifs at hpd <;>
    (try split at hpd) <;>
    first
      | exact Option.noConfusion hpd
      | (injection hpd with h
         subst h
         refine ⟨rfl, rfl, ?_, ?_, ?_⟩ <;> simp)

/-- With no elementary signals the total score is exactly the ML weight,
which lies in `[-1, 2]`; consequently the composite type on an empty
technical analysis is never `strong_buy` or `strong_sell`. -/
theorem generateSignal_empty (mlp : Option MLPrediction) :
    (generateSignal { indicators := {}, signals := [] } mlp).totalScore =
      some (mlWeightOf mlp) ∧
    -1 ≤ mlWeightOf mlp ∧ mlWeightOf mlp ≤ 2 ∧
    (generateSignal { indicators := {}, signals := [] } mlp).type ≠ "strong_buy" ∧
    (generateSignal { indicators := {}, signals := [] } mlp).type ≠ "strong_sell" := by
  have hb : -1 ≤ mlWeightOf mlp ∧ mlWeightOf mlp ≤ 2 := by
    cases mlp with
    | none => exact ⟨by norm_num [mlWeightOf], by norm_num [mlWeightOf]⟩
    | some p =>
        unfold mlWeightOf
        dsimp only
        split_ifs <;> constructor <;> norm_num
  obtain ⟨hb1, hb2⟩ := hb
  refine ⟨by simp [generateSignal], hb1, hb2, ?_, ?_⟩ <;>
    · unfold generateSignal
      dsimp only [List.filter_nil, List.map_nil, List.sum_nil]
      split_ifs with hf <;> first | (exfalso; omega) | decide

/-- C9: every price dictionary accepted by `analyze_asset` carries exactly one
close (and one volume), so the technical-analysis step always returns the
empty indicator/signal result, the composite score reduces to the ML weight
alone (bounded in `[-1, 2]`), and the emitted composite type is never
`strong_buy` or `strong_sell`. -/
theorem analyze_asset_never_strong (ext : Externals) (d : AssetData)
    (pd : PriceData) (r : AnalysisResult)
    (hpd : extractPriceData d = some pd)
    (hr : analyzeAsset ext d = Except.ok r) :
    pd.close.length = 1 ∧ pd.volume.length = 1 ∧
    pd.opn.length ≤ 1 ∧ pd.high.length ≤ 1 ∧ pd.low.length ≤ 1 ∧
    technicalAnalysis ext pd = { indicators := {}, signals := [] } ∧
    (∀ mlp, (generateSignal (technicalAnalysis ext pd) mlp).totalScore =
        some (mlWeightOf mlp) ∧
      -1 ≤ mlWeightOf mlp ∧ mlWeightOf mlp ≤ 2) ∧
    r.signal.type ≠ "strong_buy" ∧ r.signal.type ≠ "strong_sell" := by
  obtain ⟨hc, hv, ho, hh, hl⟩ := extractPriceData_single d pd hpd
  have hta : technicalAnalysis ext pd = { indicators := {}, signals := [] } := by
    unfold technicalAnalysis
    rw [if_pos (by omega)]
  have hty : r.signal.type ≠ "strong_buy" ∧ r.signal.type ≠ "strong_sell" := by
    unfold analyzeAsset analyzeAssetBody at hr
    rw [hpd] at hr
    dsimp only at hr
    cases heq : extractAssetInfo d with
    | error e =>
        rw [heq] at hr
        dsimp only at hr
        unfold createEmptyResult at hr
        rw [heq] at hr
        exact absurd hr (by simp)
    | ok ai =>
        rw [heq] at hr
        dsimp only at hr
        injection hr with h
        subst h
        dsimp only
        rw [hta]
        obtain ⟨_, _, _, h4, h5⟩ := generateSignal_empty (ext.predict pd)
        exact ⟨h4, h5⟩
  refine ⟨hc, hv, ho, hh, hl, hta, ?_, hty.1, hty.2⟩
  intro mlp
  rw [hta]
  obtain ⟨h1, h2, h3, _, _⟩ := generateSignal_empty mlp
  exact ⟨h1, h2, h3⟩

/-- C9 witness at a concrete input. -/
theorem analyze_asset_never_strong_at :
    pd9.close.length = 1 ∧ pd9.volume.length = 1 ∧
    pd9.opn.length ≤ 1 ∧ pd9.high.length ≤ 1 ∧ pd9.low.length ≤ 1 ∧
    technicalAnalysis ext0 pd9 = { indicators := {}, signals := [] } ∧
    (∀ mlp, (generateSignal (technicalAnalysis ext0 pd9) mlp).totalScore =
        some (mlWeightOf mlp) ∧
      -1 ≤ mlWeightOf mlp ∧ mlWeightOf mlp ≤ 2) ∧
    r9.signal.type ≠ "strong_buy" ∧ r9.signal.type ≠ "strong_sell" :=
  analyze_asset_never_strong ext0 d9 pd9 r9 (by rfl) (by rfl)
